import Mathlib

/-!
Shallow embedding of the concurrency-stencil storage engine core:
the pager (buffer pool) from pkg/pager/pager.go and the Grace hash
join engine from the join package.

Machine integers (int64 page numbers, pin counts) are modelled as Int;
the byte contents of pages are irrelevant to the verified properties
and are not modelled.  Maps are association lists with
most-recent-binding-wins lookup, mirroring destructive updates.
-/

/-- Pagesize mirrors pager.go: directio.BlockSize, 4096 bytes. -/
def Pagesize : Int := 4096

/-- Which queue a resident page currently lives in.  The source keeps a
page table from pagenum to an intrusive list link; the link identifies
the queue the page is in. -/
inductive PLoc
  | pinnedQ
  | unpinnedQ
deriving DecidableEq, Repr

def alookup : List (Int × Int) → Int → Int
  | [], _ => 0
  | (k, v) :: rest, q => if q = k then v else alookup rest q

def dlookup : List (Int × Bool) → Int → Bool
  | [], _ => false
  | (k, v) :: rest, q => if q = k then v else dlookup rest q

def ptLookup : List (Int × PLoc) → Int → Option PLoc
  | [], _ => none
  | (k, v) :: rest, q => if q = k then some v else ptLookup rest q

def ptSet (m : List (Int × PLoc)) (k : Int) (v : PLoc) : List (Int × PLoc) :=
  (k, v) :: m

def ptRemove (m : List (Int × PLoc)) (k : Int) : List (Int × PLoc) :=
  m.filter (fun e => e.1 != k)

/-- State of a Pager (pager.go struct Pager).  The arena of frames is
abstracted to a count of free frames; the unpinned and pinned queues
hold page numbers in queue order (head first); pageTable records which
queue each resident page is in; pins and dirtyM give each page's pin
count and dirty flag; writes is a ghost log of page numbers flushed to
disk, in flush order; fileOpen tracks the backing file descriptor. -/
structure PagerState where
  fileOpen : Bool
  numPages : Int
  freeCount : Nat
  unpinned : List Int
  pinned : List Int
  pageTable : List (Int × PLoc)
  pins : List (Int × Int)
  dirtyM : List (Int × Bool)
  writes : List Int
deriving DecidableEq, Repr

/-- The pager right after New: all frames free, nothing resident. -/
def initPager (frames : Nat) : PagerState :=
  { fileOpen := true
    numPages := 0
    freeCount := frames
    unpinned := []
    pinned := []
    pageTable := []
    pins := []
    dirtyM := []
    writes := [] }

/-- Modelled from the spec: Page.Put lives in page.go, which is not among
the stencil sources; §4.1 says unpin decrements pinCount and returns the
resulting count (PutPage at pager.go:161-169 consumes that count and
checks it for 0 and for negativity, so the decrement is unconditional). -/
def pagePut (s : PagerState) (p : Int) : Int × PagerState :=
  let ret := alookup s.pins p - 1
  (ret, { s with pins := (p, ret) :: s.pins })

/-- list.Link.PopSelf as used at pager.go:165: unlink the page from
whichever queue its page-table link currently sits in. -/
def popSelf (s : PagerState) (p : Int) : PagerState :=
  match ptLookup s.pageTable p with
  | some PLoc.pinnedQ => { s with pinned := s.pinned.erase p }
  | some PLoc.unpinnedQ => { s with unpinned := s.unpinned.erase p }
  | none => s

/-- pager.go:164-167: pop the page from its queue, push it on the tail of
the unpinned queue, and repoint the page table at the new link. -/
def moveToUnpinnedTail (s : PagerState) (p : Int) : PagerState :=
  let s1 := popSelf s p
  { s1 with
    unpinned := s1.unpinned ++ [p]
    pageTable := ptSet s1.pageTable p PLoc.unpinnedQ }

/-- PutPage (pager.go:157-173): decrement the pin count; if the resulting
count is zero move the page to the unpinned tail; report an error if the
resulting count is negative. -/
def PutPage (s : PagerState) (p : Int) : Option String × PagerState :=
  let rs := pagePut s p
  let s2 := if rs.1 = 0 then moveToUnpinnedTail rs.2 p else rs.2
  if rs.1 < 0 then (some "pinCount for page is < 0", s2) else (none, s2)

/-- Modelled from the spec: FlushPage (pager.go:176) is a stencil panic;
§4.2 says it writes the page to disk iff dirty, then clears the dirty
flag. -/
def FlushPage (s : PagerState) (p : Int) : PagerState :=
  if dlookup s.dirtyM p then
    { s with writes := s.writes ++ [p], dirtyM := (p, false) :: s.dirtyM }
  else s

/-- Modelled from the spec: FlushAllPages (pager.go:181) is a stencil
panic; §4.2 says it flushes every resident page, both pinned and
unpinned. -/
def FlushAllPages (s : PagerState) : PagerState :=
  (s.pinned ++ s.unpinned).foldl FlushPage s

/-- Close (pager.go:113-125): if the pinned queue is nonempty fail and
touch nothing; otherwise flush all pages and close the backing file. -/
def Close (s : PagerState) : Option String × PagerState :=
  match s.pinned with
  | _ :: _ => (some "pages are still pinned on close", s)
  | [] => (none, { FlushAllPages s with fileOpen := false })

/-- Outcomes of the file-system calls Open makes, treated as inputs:
mkdirErr is the MkdirAll result (consulted only when the path has a
directory component), openErr the directio.OpenFile result, and
statResult is file.Stat: some size on success, none on failure. -/
structure OpenEnv where
  mkdirErr : Option String
  openErr : Option String
  statResult : Option Int
deriving DecidableEq, Repr

/-- Open (pager.go:84-109): make parent directories, open or create the
db file, stat it; when the stat succeeds and the size is not a multiple
of Pagesize fail with a corruption error; otherwise set
numPages := len / Pagesize, where len is 0 unless the stat succeeded. -/
def pagerOpen (env : OpenEnv) (filePath : String) (s : PagerState) :
    Option String × PagerState :=
  match (if filePath.toList.contains (Char.ofNat 47) then env.mkdirErr else none) with
  | some e => (some e, s)
  | none =>
    match env.openErr with
    | some e => (some e, s)
    | none =>
      let s0 := { s with fileOpen := true }
      match env.statResult with
      | some size =>
        if size % Pagesize != 0 then (some "DB file has been corrupted", s0)
        else (none, { s0 with numPages := size / Pagesize })
      | none => (none, { s0 with numPages := 0 })

/-- Modelled from the spec: newPage (pager.go:142) is a stencil panic;
§4.2 says it takes a frame from the free queue if one exists, otherwise
evicts the head of the unpinned queue (flushing it first if dirty,
removing it from the page table), and fails when both queues are empty. -/
def newPage (s : PagerState) : Option PagerState :=
  if s.freeCount > 0 then some { s with freeCount := s.freeCount - 1 }
  else
    match s.unpinned with
    | [] => none
    | v :: rest =>
      let s1 := FlushPage s v
      some { s1 with unpinned := rest, pageTable := ptRemove s1.pageTable v }

/-- bindFrame installs page pn in a frame as a freshly pinned resident
page: tail of the pinned queue, pin count 1, clean. -/
def bindFrame (s : PagerState) (pn : Int) : PagerState :=
  { s with
    pinned := s.pinned ++ [pn]
    pageTable := ptSet s.pageTable pn PLoc.pinnedQ
    pins := (pn, 1) :: s.pins
    dirtyM := (pn, false) :: s.dirtyM }

/-- Modelled from the spec: GetPage (pager.go:152) is a stencil panic;
§4.2 says a resident page is re-pinned (and moved from the unpinned to
the pinned queue when its count was zero) with no io; a miss obtains a
frame via newPage, reads from disk and pins; pagenum out of range
fails. -/
def GetPage (s : PagerState) (pn : Int) : Option String × PagerState :=
  if pn < 0 ∨ s.numPages ≤ pn then (some "invalid pagenum", s)
  else
    match ptLookup s.pageTable pn with
    | some loc =>
      let c := alookup s.pins pn
      let s1 := { s with pins := (pn, c + 1) :: s.pins }
      match loc with
      | PLoc.unpinnedQ =>
        (none, { s1 with
                 unpinned := s1.unpinned.erase pn
                 pinned := s1.pinned ++ [pn]
                 pageTable := ptSet s1.pageTable pn PLoc.pinnedQ })
      | PLoc.pinnedQ => (none, s1)
    | none =>
      match newPage s with
      | none => (some "no available pages", s)
      | some s1 => (none, bindFrame s1 pn)

/-- Modelled from the spec: GetNewPage (pager.go:147) is a stencil panic;
§4.2 says it allocates pagenum = numPages, increments numPages, binds the
number to a frame from newPage, and pins it. -/
def GetNewPage (s : PagerState) : Option String × PagerState :=
  match newPage s with
  | none => (some "no available pages", s)
  | some s1 => (none, { bindFrame s1 s.numPages with numPages := s.numPages + 1 })

/-- One pager call in a client trace. -/
inductive Op
  | getPage (pn : Int)
  | getNewPage
  | putPage (pn : Int)
deriving DecidableEq, Repr

def stepOp (s : PagerState) (op : Op) : Option String × PagerState :=
  match op with
  | Op.getPage pn => GetPage s pn
  | Op.getNewPage => GetNewPage s
  | Op.putPage pn => PutPage s pn

/-- Run a trace, stopping (with none) at the first erroring call. -/
def runOk (s : PagerState) : List Op → Option PagerState
  | [] => some s
  | op :: rest =>
    match stepOp s op with
    | (none, s1) => runOk s1 rest
    | (some _, _) => none

/-- Run a trace to the end, ignoring errors (each call's state effect
still happens, as in the source, where PutPage mutates before it
reports the error). -/
def runAll (s : PagerState) : List Op → PagerState
  | [] => s
  | op :: rest => runAll (stepOp s op).2 rest

/-!
Join engine (the join package source:
probeBuckets at part lines 78-90, Join at lines 97-165).
-/

/-- How the probe-setup loop of Join can fail: GetBucketByPN on the left
table (part_000:151) or on the right table (part_000:155) returning an
error for the pair being set up. -/
inductive FetchFail
  | left (p : Int × Int)
  | right (p : Int × Int)
deriving DecidableEq, Repr

/-- Result of the lockstep directory walk: bucket-number pairs for which
a probe task was spawned, bucket pages released inside the loop itself,
and the failure that aborted the walk, if any. -/
structure WalkResult where
  spawned : List (Int × Int)
  released : List Int
  failure : Option FetchFail
deriving DecidableEq, Repr

/-- The probe-setup loop of Join (part_000:143-163): walk the zipped
directories, skip a pair already in the seen set, mark it seen, fetch
the left bucket then the right bucket (fL and fR give each fetch's
outcome by bucket page number); on a right-fetch failure the left
bucket's page is released before returning; on success a probe task is
spawned for the pair. -/
def probeSetup (fL fR : Int → Bool) (seen : List (Int × Int)) :
    List (Int × Int) → WalkResult
  | [] => { spawned := [], released := [], failure := none }
  | p :: rest =>
    if p ∈ seen then probeSetup fL fR seen rest
    else if fL p.1 then
      if fR p.2 then
        let w := probeSetup fL fR (p :: seen) rest
        { w with spawned := p :: w.spawned }
      else { spawned := [], released := [p.1], failure := some (FetchFail.right p) }
    else { spawned := [], released := [], failure := some (FetchFail.left p) }

/-- Modelled from the spec: hash.HashIndex.Close (the hash package is not
among the stencil sources) flushes the temporary index, leaving its data
file and the sidecar metadata file name ++ ".meta" on disk (§6).  The
file system is modelled as the set of existing path names. -/
def closeIndex (name : String) (fs : Finset String) : Finset String :=
  insert (name ++ ".meta") (insert name fs)

/-- os.Remove with its error ignored (part_000:119-122): erase the path
if present, do nothing otherwise. -/
def osRemove (name : String) (fs : Finset String) : Finset String :=
  fs.erase name

/-- The cleanup callback Join builds at part_000:116-123: close both
temporary indexes, then remove the left data file, its metadata file,
the right data file, and its metadata file. -/
def cleanupCallback (l r : String) (fs : Finset String) : Finset String :=
  osRemove (r ++ ".meta")
    (osRemove r
      (osRemove (l ++ ".meta")
        (osRemove l (closeIndex r (closeIndex l fs)))))

/-- What Join's probe-setup phase hands back to the caller. -/
structure JoinRet where
  spawned : List (Int × Int)
  released : List Int
  failure : Option FetchFail
  cleanup : Option (Finset String → Finset String)

/-- Join from the depth-equalized state on (part_000:136-165): walk the
two equal-length directories in lockstep, dedup bucket-number pairs,
fetch and spawn.  Every return after the cleanup callback is assigned at
part_000:116 carries that callback: the error returns at part_000:153
and part_000:158 and the success return at part_000:164. -/
def JoinModel (fL fR : Int → Bool) (lName rName : String)
    (lDir rDir : List Int) : JoinRet :=
  let w := probeSetup fL fR [] (lDir.zip rDir)
  { spawned := w.spawned
    released := w.released
    failure := w.failure
    cleanup := some (cleanupCallback lName rName) }

/-- Modelled from the spec: hash.HashTable.ExtendTable (the hash package
is not among the stencil sources) doubles the directory and increments
globalDepth by one, moving no entries (§4.3); only the global depth is
relevant to the equalization loop. -/
def extendTable (d : Nat) : Nat := d + 1

/-- The depth-equalization loop of Join (part_000:127-135), acting on
the two global depths: while they differ, extend the smaller one. -/
def equalizeDepths (l r : Nat) : Nat × Nat :=
  if l = r then (l, r)
  else if l < r then equalizeDepths (extendTable l) r
  else equalizeDepths l (extendTable r)
termination_by (l - r) + (r - l)
decreasing_by
  all_goals (simp only [extendTable]; omega)

/-- Whether an equalization step extended the left or the right table. -/
inductive Side
  | left
  | right
deriving DecidableEq, Repr

/-- The extension steps the loop at part_000:127-135 performs, each
recorded with the side extended and the two depths before the step. -/
def equalizeTrace (l r : Nat) : List (Side × Nat × Nat) :=
  if l = r then []
  else if l < r then (Side.left, l, r) :: equalizeTrace (extendTable l) r
  else (Side.right, l, r) :: equalizeTrace l (extendTable r)
termination_by (l - r) + (r - l)
decreasing_by
  all_goals (simp only [extendTable]; omega)

/-- Modelled from the spec: the scan body of probeBuckets (part_000:89)
is a stencil panic; §4.4 says it scans one bucket's entries against the
other's, sending each matching pair through sendResult (part_000:60-71),
where a send attempt observes cancellation.  pairsToSend lists the
matches in scan order; cancelAt = some n means the context is observed
cancelled at the nth send attempt.  Returns the body's error outcome and
the pairs actually emitted. -/
def probeScan (pairsToSend : List (Int × Int)) (cancelAt : Option Nat) :
    Option String × List (Int × Int) :=
  match pairsToSend, cancelAt with
  | [], _ => (none, [])
  | _ :: _, some 0 => (some "context canceled", [])
  | m :: rest, some (n + 1) =>
    let out := probeScan rest (some n)
    (out.1, m :: out.2)
  | m :: rest, none =>
    let out := probeScan rest none
    (out.1, m :: out.2)

/-- probeBuckets (part_000:78-90): the deferred PutPage calls at
part_000:86-87 run on every exit path of the body, releasing the right
bucket page then the left bucket page (defers run last-in first-out).
The first component is the body's outcome; the second lists the bucket
pages released, in release order. -/
def probeBuckets (lPN rPN : Int) (pairsToSend : List (Int × Int))
    (cancelAt : Option Nat) : (Option String × List (Int × Int)) × List Int :=
  (probeScan pairsToSend cancelAt, [rPN, lPN])

/-!
Theorems.
-/

/-- C4: with the directory creation, file open and stat all succeeding
and the stat reporting size, Open fails (with the corruption error) iff
size is not a multiple of Pagesize; on success numPages = size /
Pagesize; a fresh file (size 0) yields numPages = 0. -/
theorem open_validates_alignment (env : OpenEnv) (filePath : String)
    (s : PagerState) (size : Int) (hm : env.mkdirErr = none)
    (ho : env.openErr = none) (hs : env.statResult = some size) :
    ((pagerOpen env filePath s).1 = none ↔ size % Pagesize = 0) ∧
    (size % Pagesize ≠ 0 →
      (pagerOpen env filePath s).1 = some "DB file has been corrupted") ∧
    (size % Pagesize = 0 →
      (pagerOpen env filePath s).2.numPages = size / Pagesize) ∧
    (size = 0 → (pagerOpen env filePath s).2.numPages = 0) := by
  have hbranch :
      (if filePath.toList.contains (Char.ofNat 47) then env.mkdirErr else none)
        = (none : Option String) := by
    rw [hm]; exact ite_self none
  unfold pagerOpen
  rw [hbranch, ho, hs]
  by_cases hz : size % Pagesize = 0
  · constructor
    · simp [hz]
    · refine ⟨fun hcon => absurd hz hcon, fun _ => ?_, fun h0 => ?_⟩
      · simp [hz]
      · subst h0
        simp
  · constructor
    · simp [bne, hz]
    · refine ⟨fun _ => ?_, fun hcon => absurd hcon hz, fun h0 => ?_⟩
      · simp [bne, hz]
      · subst h0
        simp at hz

/-- Witness for C4 at a concrete environment: a 2-page file opens with
numPages = 2, and a misaligned file is rejected. -/
theorem open_validates_alignment_witness :
    ((pagerOpen { mkdirErr := none, openErr := none, statResult := some 8192 }
        "test.db" (initPager 4)).2.numPages = 8192 / Pagesize) ∧
    ((pagerOpen { mkdirErr := none, openErr := none, statResult := some 100 }
        "test.db" (initPager 4)).1 = some "DB file has been corrupted") :=
  ⟨(open_validates_alignment _ "test.db" (initPager 4) 8192 rfl rfl rfl).2.2.1
      (by decide),
   (open_validates_alignment _ "test.db" (initPager 4) 100 rfl rfl rfl).2.1
      (by decide)⟩

/-- C5 fails on the code: when file.Stat errors, Open drops the error
(the err == nil guard at pager.go:100 falls through to pager.go:106) and
reports success, with numPages = 0 regardless of the file's length. -/
theorem open_swallows_stat_error :
    (pagerOpen { mkdirErr := none, openErr := none, statResult := none }
      "data.db" (initPager 4)).1 = none ∧
    (pagerOpen { mkdirErr := none, openErr := none, statResult := none }
      "data.db" (initPager 4)).2.numPages = 0 := by
  constructor
  · rfl
  · rfl

lemma probeSetup_skip (fL fR : Int → Bool) (seen : List (Int × Int))
    (q : Int × Int) (rest : List (Int × Int)) (hq : q ∈ seen) :
    probeSetup fL fR seen (q :: rest) = probeSetup fL fR seen rest := by
  simp [probeSetup, hq]

lemma probeSetup_go (fL fR : Int → Bool) (seen : List (Int × Int))
    (q : Int × Int) (rest : List (Int × Int)) (hq : q ∉ seen)
    (hfl : fL q.1 = true) (hfr : fR q.2 = true) :
    probeSetup fL fR seen (q :: rest)
      = { probeSetup fL fR (q :: seen) rest with
          spawned := q :: (probeSetup fL fR (q :: seen) rest).spawned } := by
  simp [probeSetup, hq, hfl, hfr]

lemma probeSetup_true_count (p : Int × Int) :
    ∀ (xs seen : List (Int × Int)),
      List.count p (probeSetup (fun _ => true) (fun _ => true) seen xs).spawned
        = if p ∈ xs ∧ p ∉ seen then 1 else 0 := by
  intro xs
  induction xs with
  | nil =>
    intro seen
    simp [probeSetup]
  | cons q rest ih =>
    intro seen
    by_cases hq : q ∈ seen
    · rw [probeSetup_skip _ _ _ _ _ hq, ih seen]
      by_cases hpq : p = q
      · subst hpq
        simp [hq]
      · simp [List.mem_cons, hpq]
    · rw [probeSetup_go _ _ _ _ _ hq rfl rfl]
      simp only [List.count_cons, ih (q :: seen)]
      by_cases hpq : p = q
      · subst hpq
        simp [hq]
      · simp [List.mem_cons, hpq, Ne.symm hpq]

/-- C6: in Join's probe phase with every bucket fetch succeeding, a
bucket-number pair occurring in the lockstep walk of the two directories
has exactly one probe task spawned for it, and a pair not occurring has
none: aliased directory slots never cause a second probe of the same
pair. -/
theorem probe_pair_spawned_once (lName rName : String) (lDir rDir : List Int)
    (p : Int × Int) :
    List.count p
        (JoinModel (fun _ => true) (fun _ => true) lName rName lDir rDir).spawned
      = if p ∈ lDir.zip rDir then 1 else 0 := by
  have h := probeSetup_true_count p (lDir.zip rDir) []
  simpa [JoinModel] using h

lemma equalize_eq_max : ∀ (n l r : Nat), (l - r) + (r - l) ≤ n →
    equalizeDepths l r = (max l r, max l r) := by
  intro n
  induction n with
  | zero =>
    intro l r h
    have heq : l = r := by omega
    subst heq
    rw [equalizeDepths]
    simp
  | succ n ih =>
    intro l r h
    by_cases heq : l = r
    · subst heq
      rw [equalizeDepths]
      simp
    · by_cases hlt : l < r
      · rw [equalizeDepths, if_neg heq, if_pos hlt]
        rw [show extendTable l = l + 1 from rfl]
        rw [ih (l + 1) r (by omega)]
        rw [Nat.max_eq_right (by omega : l + 1 ≤ r), Nat.max_eq_right (by omega : l ≤ r)]
      · rw [equalizeDepths, if_neg heq, if_neg hlt]
        rw [show extendTable r = r + 1 from rfl]
        rw [ih l (r + 1) (by omega)]
        rw [Nat.max_eq_left (by omega : r + 1 ≤ l), Nat.max_eq_left (by omega : r ≤ l)]

lemma equalizeTrace_steps : ∀ (n l r : Nat), (l - r) + (r - l) ≤ n →
    ∀ e ∈ equalizeTrace l r,
      (e.1 = Side.left → e.2.1 < e.2.2) ∧ (e.1 = Side.right → e.2.2 < e.2.1) := by
  intro n
  induction n with
  | zero =>
    intro l r h e he
    have heq : l = r := by omega
    subst heq
    rw [equalizeTrace] at he
    simp at he
  | succ n ih =>
    intro l r h e he
    by_cases heq : l = r
    · subst heq
      rw [equalizeTrace] at he
      simp at he
    · by_cases hlt : l < r
      · rw [equalizeTrace, if_neg heq, if_pos hlt] at he
        rcases List.mem_cons.mp he with rfl | hmem
        · exact ⟨fun _ => hlt, fun hcon => by simp at hcon⟩
        · exact ih (extendTable l) r (by simp only [extendTable]; omega) e hmem
      · rw [equalizeTrace, if_neg heq, if_neg hlt] at he
        rcases List.mem_cons.mp he with rfl | hmem
        · exact ⟨fun hcon => by simp at hcon, fun _ => by show r < l; omega⟩
        · exact ih l (extendTable r) (by simp only [extendTable]; omega) e hmem

/-- C7: for any pair of global depths the equalization loop of Join
terminates with both depths equal (namely the larger of the two), and
every extension step it performs is applied to the table whose depth is
strictly smaller at that step. -/
theorem equalization_spec (l r : Nat) :
    equalizeDepths l r = (max l r, max l r) ∧
    ∀ e ∈ equalizeTrace l r,
      (e.1 = Side.left → e.2.1 < e.2.2) ∧ (e.1 = Side.right → e.2.2 < e.2.1) :=
  ⟨equalize_eq_max ((l - r) + (r - l)) l r (Nat.le_refl _),
   equalizeTrace_steps ((l - r) + (r - l)) l r (Nat.le_refl _)⟩

/-- Witness for C7: depths 2 and 5 equalize to (5, 5), and the first
recorded step extends the left (strictly smaller) side, 2 < 5. -/
theorem equalization_spec_witness :
    equalizeDepths 2 5 = (5, 5) ∧ 2 < 5 :=
  ⟨(equalization_spec 2 5).1,
   ((equalization_spec 2 5).2 (Side.left, 2, 5)
      (by simp [equalizeTrace, extendTable])).1 rfl⟩

lemma probeScan_none_ok : ∀ ms : List (Int × Int), (probeScan ms none).1 = none := by
  intro ms
  induction ms with
  | nil => rfl
  | cons m rest ih => simp [probeScan, ih]

lemma probeScan_cancelled : ∀ (ms : List (Int × Int)) (n : Nat), n < ms.length →
    ((probeScan ms (some n)).1).isSome = true := by
  intro ms
  induction ms with
  | nil =>
    intro n h
    simp at h
  | cons m rest ih =>
    intro n h
    cases n with
    | zero => rfl
    | succ k =>
      have hk := ih k (by simpa using h)
      simp [probeScan, hk]

/-- C8: probeBuckets performs exactly one PutPage per fetched bucket on
every exit path — the two deferred puts, right bucket page then left —
both when the scan runs to completion (no cancellation, outcome none)
and when a cancelled context aborts one of its sends (outcome is an
error). -/
theorem probe_releases_both (lPN rPN : Int) (ms : List (Int × Int))
    (cancelAt : Option Nat) :
    (probeBuckets lPN rPN ms cancelAt).2 = [rPN, lPN] ∧
    (cancelAt = none → ((probeBuckets lPN rPN ms cancelAt).1).1 = none) ∧
    (∀ n, cancelAt = some n → n < ms.length →
      (((probeBuckets lPN rPN ms cancelAt).1).1).isSome = true) := by
  refine ⟨rfl, ?_, ?_⟩
  · rintro rfl
    exact probeScan_none_ok ms
  · rintro n rfl h
    exact probeScan_cancelled ms n h

/-- Witness for C8: a task whose first send observes cancellation exits
with an error and has still released both bucket pages. -/
theorem probe_releases_both_witness :
    (probeBuckets 7 9 [(1, 1)] (some 0)).2 = [9, 7] ∧
    (((probeBuckets 7 9 [(1, 1)] (some 0)).1).1).isSome = true :=
  ⟨(probe_releases_both 7 9 [(1, 1)] (some 0)).1,
   (probe_releases_both 7 9 [(1, 1)] (some 0)).2.2 0 rfl (by decide)⟩

lemma mem_cleanupCallback (l r x : String) (fs : Finset String) :
    x ∈ cleanupCallback l r fs ↔
      x ∈ fs ∧ x ≠ l ∧ x ≠ l ++ ".meta" ∧ x ≠ r ∧ x ≠ r ++ ".meta" := by
  simp only [cleanupCallback, osRemove, closeIndex, Finset.mem_erase,
    Finset.mem_insert]
  tauto

/-- C9: the cleanup callback removes the left temp data file, its
sidecar metadata file, the right temp data file, and its sidecar
metadata file from the file system, whatever its prior contents; and
applying the callback twice leaves exactly the state one application
leaves (idempotence). -/
theorem cleanup_removes_and_idempotent (l r : String) (fs : Finset String) :
    l ∉ cleanupCallback l r fs ∧
    (l ++ ".meta") ∉ cleanupCallback l r fs ∧
    r ∉ cleanupCallback l r fs ∧
    (r ++ ".meta") ∉ cleanupCallback l r fs ∧
    cleanupCallback l r (cleanupCallback l r fs) = cleanupCallback l r fs := by
  refine ⟨?_, ?_, ?_, ?_, ?_⟩
  · simp [mem_cleanupCallback]
  · simp [mem_cleanupCallback]
  · simp [mem_cleanupCallback]
  · simp [mem_cleanupCallback]
  · ext x
    simp only [mem_cleanupCallback]
    tauto

lemma probeSetup_right_stop (fL fR : Int → Bool) (seen : List (Int × Int))
    (q : Int × Int) (rest : List (Int × Int)) (hq : q ∉ seen)
    (hfl : fL q.1 = true) (hfr : fR q.2 = false) :
    probeSetup fL fR seen (q :: rest)
      = { spawned := [], released := [q.1],
          failure := some (FetchFail.right q) } := by
  simp [probeSetup, hq, hfl, hfr]

lemma probeSetup_left_stop (fL fR : Int → Bool) (seen : List (Int × Int))
    (q : Int × Int) (rest : List (Int × Int)) (hq : q ∉ seen)
    (hfl : fL q.1 = false) :
    probeSetup fL fR seen (q :: rest)
      = { spawned := [], released := [],
          failure := some (FetchFail.left q) } := by
  simp [probeSetup, hq, hfl]

lemma probeSetup_right_fail (fL fR : Int → Bool) (p : Int × Int) :
    ∀ (xs seen : List (Int × Int)),
      (probeSetup fL fR seen xs).failure = some (FetchFail.right p) →
      (probeSetup fL fR seen xs).released = [p.1] := by
  intro xs
  induction xs with
  | nil =>
    intro seen h
    simp [probeSetup] at h
  | cons q rest ih =>
    intro seen h
    by_cases hq : q ∈ seen
    · rw [probeSetup_skip _ _ _ _ _ hq] at h ⊢
      exact ih seen h
    · rcases Bool.eq_false_or_eq_true (fL q.1) with hfl | hfl
      · rcases Bool.eq_false_or_eq_true (fR q.2) with hfr | hfr
        · rw [probeSetup_go _ _ _ _ _ hq hfl hfr] at h ⊢
          exact ih (q :: seen) h
        · rw [probeSetup_right_stop _ _ _ _ _ hq hfl hfr] at h ⊢
          simp at h
          rw [h]
      · rw [probeSetup_left_stop _ _ _ _ _ hq hfl] at h
        simp at h

/-- C10: when Join's probe-setup loop fails to fetch the right bucket of
a pair whose left bucket was already fetched and pinned, the left
bucket's page is the one page released inside the loop before Join
returns the error, and that error return still carries the cleanup
callback. -/
theorem join_right_fetch_fail_cleanup (fL fR : Int → Bool)
    (lName rName : String) (lDir rDir : List Int) (p : Int × Int)
    (h : (JoinModel fL fR lName rName lDir rDir).failure
          = some (FetchFail.right p)) :
    (JoinModel fL fR lName rName lDir rDir).released = [p.1] ∧
    ((JoinModel fL fR lName rName lDir rDir).cleanup).isSome = true := by
  refine ⟨?_, rfl⟩
  have h2 : (probeSetup fL fR [] (lDir.zip rDir)).failure
      = some (FetchFail.right p) := by
    simpa [JoinModel] using h
  simpa [JoinModel] using probeSetup_right_fail fL fR p (lDir.zip rDir) [] h2

/-- Witness for C10: a walk whose only pair is (1, 7), with the fetch of
right bucket 7 failing, releases left bucket page 1 and returns a
non-nil cleanup callback. -/
theorem join_right_fetch_fail_cleanup_witness :
    (JoinModel (fun _ => true) (fun n => n != 7) "left.db" "right.db"
        [1] [7]).failure = some (FetchFail.right (1, 7)) ∧
    (JoinModel (fun _ => true) (fun n => n != 7) "left.db" "right.db"
        [1] [7]).released = [1] ∧
    ((JoinModel (fun _ => true) (fun n => n != 7) "left.db" "right.db"
        [1] [7]).cleanup).isSome = true :=
  ⟨by decide,
   (join_right_fetch_fail_cleanup (fun _ => true) (fun n => n != 7)
      "left.db" "right.db" [1] [7] (1, 7) (by decide)).1,
   (join_right_fetch_fail_cleanup (fun _ => true) (fun n => n != 7)
      "left.db" "right.db" [1] [7] (1, 7) (by decide)).2⟩

lemma flushPage_clean_self (s : PagerState) (p : Int) :
    dlookup (FlushPage s p).dirtyM p = false := by
  cases hd : dlookup s.dirtyM p with
  | false => simp [FlushPage, hd]
  | true => simp [FlushPage, hd, dlookup]

lemma flushPage_clean_mono (s : PagerState) (p q : Int)
    (h : dlookup s.dirtyM p = false) :
    dlookup (FlushPage s q).dirtyM p = false := by
  cases hq : dlookup s.dirtyM q with
  | false => simpa [FlushPage, hq] using h
  | true => simp [FlushPage, hq, dlookup, h]

lemma flushFold_clean (l : List Int) :
    ∀ (s : PagerState) (p : Int), dlookup s.dirtyM p = false ∨ p ∈ l →
      dlookup (l.foldl FlushPage s).dirtyM p = false := by
  induction l with
  | nil =>
    intro s p h
    rcases h with h | h
    · simpa using h
    · simp at h
  | cons q rest ih =>
    intro s p h
    rw [List.foldl_cons]
    rcases h with h | h
    · exact ih (FlushPage s q) p (Or.inl (flushPage_clean_mono s p q h))
    · rcases List.mem_cons.mp h with rfl | hmem
      · exact ih (FlushPage s p) p (Or.inl (flushPage_clean_self s p))
      · exact ih (FlushPage s q) p (Or.inr hmem)

lemma flushPage_writes_mono (s : PagerState) (p q : Int)
    (h : p ∈ s.writes) : p ∈ (FlushPage s q).writes := by
  cases hq : dlookup s.dirtyM q with
  | false => simpa [FlushPage, hq] using h
  | true =>
    simp [FlushPage, hq]
    exact Or.inl h

lemma flushFold_writes_mono (l : List Int) :
    ∀ (s : PagerState) (p : Int), p ∈ s.writes →
      p ∈ (l.foldl FlushPage s).writes := by
  induction l with
  | nil =>
    intro s p h
    simpa using h
  | cons q rest ih =>
    intro s p h
    rw [List.foldl_cons]
    exact ih _ p (flushPage_writes_mono s p q h)

lemma flushPage_dirty_other (s : PagerState) (p q : Int) (hpq : p ≠ q) :
    dlookup (FlushPage s q).dirtyM p = dlookup s.dirtyM p := by
  cases hq : dlookup s.dirtyM q with
  | false => simp [FlushPage, hq]
  | true => simp [FlushPage, hq, dlookup, hpq]

lemma flushFold_writes (l : List Int) :
    ∀ (s : PagerState) (p : Int), p ∈ l → dlookup s.dirtyM p = true →
      p ∈ (l.foldl FlushPage s).writes := by
  induction l with
  | nil =>
    intro s p h
    simp at h
  | cons q rest ih =>
    intro s p hmem hd
    rw [List.foldl_cons]
    by_cases hpq : p = q
    · subst hpq
      have hw : p ∈ (FlushPage s p).writes := by
        simp [FlushPage, hd]
      exact flushFold_writes_mono rest _ p hw
    · rcases List.mem_cons.mp hmem with rfl | hmem2
      · exact absurd rfl hpq
      · refine ih (FlushPage s q) p hmem2 ?_
        rw [flushPage_dirty_other s p q hpq]
        exact hd

/-- C1: Close succeeds iff the pinned queue is empty at the call.  When
a page is pinned it returns an error and the state is exactly the old
state (nothing flushed, backing file still open).  When no page is
pinned it closes the backing file, every resident page (the unpinned
queue: with the pinned queue empty those are all resident pages) ends
clean, and every dirty resident page got written to disk. -/
theorem close_spec (s : PagerState) :
    ((Close s).1 = none ↔ s.pinned = []) ∧
    (s.pinned ≠ [] → (Close s).2 = s) ∧
    (s.pinned = [] →
      (Close s).2.fileOpen = false ∧
      (∀ p ∈ s.unpinned, dlookup (Close s).2.dirtyM p = false) ∧
      (∀ p ∈ s.unpinned, dlookup s.dirtyM p = true → p ∈ (Close s).2.writes)) := by
  cases hp : s.pinned with
  | cons a l =>
    refine ⟨?_, fun _ => ?_, fun hcon => ?_⟩
    · simp [Close, hp]
    · simp [Close, hp]
    · simp [hp] at hcon
  | nil =>
    have hclose : Close s = (none, { FlushAllPages s with fileOpen := false }) := by
      simp [Close, hp]
    refine ⟨?_, fun hcon => (hcon (by simp [hp])).elim, fun _ => ?_⟩
    · rw [hclose]
      simp [hp]
    · rw [hclose]
      refine ⟨rfl, fun p hmem => ?_, fun p hmem hd => ?_⟩
      · show dlookup (FlushAllPages s).dirtyM p = false
        unfold FlushAllPages
        rw [hp, List.nil_append]
        exact flushFold_clean s.unpinned s p (Or.inr hmem)
      · show p ∈ (FlushAllPages s).writes
        unfold FlushAllPages
        rw [hp, List.nil_append]
        exact flushFold_writes s.unpinned s p hmem hd

/-- Witness for C1: closing a pager holding one pinned page leaves the
state untouched; after releasing the page, close succeeds and the
backing file ends closed. -/
theorem close_spec_witness :
    (Close (runAll (initPager 2) [Op.getNewPage])).2
        = runAll (initPager 2) [Op.getNewPage] ∧
    (Close (runAll (initPager 2) [Op.getNewPage, Op.putPage 0])).2.fileOpen
        = false :=
  ⟨(close_spec (runAll (initPager 2) [Op.getNewPage])).2.1 (by decide),
   ((close_spec (runAll (initPager 2) [Op.getNewPage, Op.putPage 0])).2.2
      (by decide)).1⟩

lemma popSelf_pinnedQ (s : PagerState) (p : Int)
    (hloc : ptLookup s.pageTable p = some PLoc.pinnedQ) :
    popSelf s p = { s with pinned := s.pinned.erase p } := by
  unfold popSelf
  rw [hloc]

lemma moveToUnpinnedTail_pinnedQ (s : PagerState) (p : Int)
    (hloc : ptLookup s.pageTable p = some PLoc.pinnedQ) :
    moveToUnpinnedTail s p
      = { s with pinned := s.pinned.erase p, unpinned := s.unpinned ++ [p], pageTable := ptSet s.pageTable p PLoc.unpinnedQ } := by
  unfold moveToUnpinnedTail
  rw [popSelf_pinnedQ s p hloc]

/-- C2: for a page resident in the pinned queue (pinned queue free of
duplicates), PutPage decrements its pin count by one; exactly when the
resulting count is zero the page leaves the pinned queue for the tail of
the unpinned queue and its page-table entry is repointed at the unpinned
queue; when the resulting count is nonzero the queues and page table are
untouched; and PutPage returns an error exactly when the resulting count
is negative. -/
theorem putPage_spec (s : PagerState) (p : Int)
    (hloc : ptLookup s.pageTable p = some PLoc.pinnedQ)
    (hnodup : s.pinned.Nodup) :
    alookup (PutPage s p).2.pins p = alookup s.pins p - 1 ∧
    (alookup s.pins p - 1 = 0 →
      ptLookup (PutPage s p).2.pageTable p = some PLoc.unpinnedQ ∧
      (PutPage s p).2.unpinned = s.unpinned ++ [p] ∧
      p ∉ (PutPage s p).2.pinned) ∧
    (alookup s.pins p - 1 ≠ 0 →
      (PutPage s p).2.pageTable = s.pageTable ∧
      (PutPage s p).2.unpinned = s.unpinned ∧
      (PutPage s p).2.pinned = s.pinned) ∧
    ((PutPage s p).1.isSome = true ↔ alookup s.pins p - 1 < 0) := by
  by_cases hz : alookup s.pins p - 1 = 0
  · have hmove : PutPage s p
        = (none, moveToUnpinnedTail
            { s with pins := (p, alookup s.pins p - 1) :: s.pins } p) := by
      simp [PutPage, pagePut, hz]
    have hloc1 : ptLookup
        ({ s with pins := (p, alookup s.pins p - 1) :: s.pins }
          : PagerState).pageTable p = some PLoc.pinnedQ := hloc
    rw [hmove, moveToUnpinnedTail_pinnedQ _ p hloc1]
    refine ⟨?_, fun _ => ⟨?_, ?_, ?_⟩, fun hcon => absurd hz hcon, ?_⟩
    · simp [alookup]
    · simp [ptLookup, ptSet]
    · rfl
    · exact hnodup.not_mem_erase
    · simp
      omega
  · have hs2 : (PutPage s p).2
        = { s with pins := (p, alookup s.pins p - 1) :: s.pins } := by
      by_cases hneg : alookup s.pins p - 1 < 0
      · simp [PutPage, pagePut, hz, hneg]
      · simp [PutPage, pagePut, hz, hneg]
    have herr : (PutPage s p).1
        = if alookup s.pins p - 1 < 0
          then some "pinCount for page is < 0" else none := by
      by_cases hneg : alookup s.pins p - 1 < 0
      · simp [PutPage, pagePut, hz, hneg]
      · simp [PutPage, pagePut, hz, hneg]
    refine ⟨?_, fun hcon => absurd hcon hz, fun _ => ?_, ?_⟩
    · rw [hs2]
      simp [alookup]
    · rw [hs2]
      exact ⟨rfl, rfl, rfl⟩
    · rw [herr]
      by_cases hneg : alookup s.pins p - 1 < 0
      · simp [hneg]
      · simp [hneg]

/-- Witness for C2: releasing the single pinned page of a fresh pager
drops its pin count from 1 to 0 and moves it to the unpinned queue. -/
theorem putPage_spec_witness :
    alookup (PutPage (runAll (initPager 2) [Op.getNewPage]) 0).2.pins 0
        = alookup (runAll (initPager 2) [Op.getNewPage]).pins 0 - 1 ∧
    ptLookup (PutPage (runAll (initPager 2) [Op.getNewPage]) 0).2.pageTable 0
        = some PLoc.unpinnedQ :=
  ⟨(putPage_spec (runAll (initPager 2) [Op.getNewPage]) 0
      (by decide) (by decide)).1,
   ((putPage_spec (runAll (initPager 2) [Op.getNewPage]) 0
      (by decide) (by decide)).2.1 (by decide)).1⟩

lemma flushPage_pins (s : PagerState) (p : Int) :
    (FlushPage s p).pins = s.pins := by
  unfold FlushPage
  split <;> rfl

lemma moveToUnpinnedTail_pins (s : PagerState) (p : Int) :
    (moveToUnpinnedTail s p).pins = s.pins := by
  unfold moveToUnpinnedTail popSelf
  split <;> rfl

lemma newPage_pins (s sx : PagerState) (h : newPage s = some sx) :
    sx.pins = s.pins := by
  unfold newPage at h
  by_cases hf : s.freeCount > 0
  · rw [if_pos hf] at h
    cases h
    rfl
  · rw [if_neg hf] at h
    cases hu : s.unpinned with
    | nil =>
      rw [hu] at h
      cases h
    | cons v rest =>
      rw [hu] at h
      simp at h
      rw [← h]
      show (FlushPage s v).pins = s.pins
      exact flushPage_pins s v

lemma putPage_snd (s : PagerState) (p : Int) :
    (PutPage s p).2
      = if alookup s.pins p - 1 = 0
        then moveToUnpinnedTail
          { s with pins := (p, alookup s.pins p - 1) :: s.pins } p
        else { s with pins := (p, alookup s.pins p - 1) :: s.pins } := by
  simp only [PutPage, pagePut]
  by_cases hneg : alookup s.pins p - 1 < 0
  · rw [if_pos hneg]
  · rw [if_neg hneg]

lemma putPage_fst (s : PagerState) (p : Int) :
    (PutPage s p).1
      = if alookup s.pins p - 1 < 0
        then some "pinCount for page is < 0" else none := by
  simp only [PutPage, pagePut]
  by_cases hneg : alookup s.pins p - 1 < 0
  · rw [if_pos hneg, if_pos hneg]
  · rw [if_neg hneg, if_neg hneg]

lemma alookup_cons_ge (m : List (Int × Int)) (k v : Int)
    (hm : ∀ x, 0 ≤ alookup m x) (hv : 0 ≤ v) :
    ∀ q, 0 ≤ alookup ((k, v) :: m) q := by
  intro q
  unfold alookup
  by_cases h : q = k
  · rw [if_pos h]
    exact hv
  · rw [if_neg h]
    exact hm q

lemma putPage_pins_nonneg (s : PagerState) (pn : Int) (s1 : PagerState)
    (hstep : PutPage s pn = (none, s1)) (hinv : ∀ q, 0 ≤ alookup s.pins q) :
    ∀ q, 0 ≤ alookup s1.pins q := by
  have hfst : (PutPage s pn).1 = none := by rw [hstep]
  rw [putPage_fst] at hfst
  by_cases hneg : alookup s.pins pn - 1 < 0
  · rw [if_pos hneg] at hfst
    cases hfst
  · have hsnd : s1 = (PutPage s pn).2 := by rw [hstep]
    rw [putPage_snd] at hsnd
    by_cases hz : alookup s.pins pn - 1 = 0
    · rw [if_pos hz] at hsnd
      intro q
      rw [hsnd, moveToUnpinnedTail_pins]
      exact alookup_cons_ge s.pins pn _ hinv (by omega) q
    · rw [if_neg hz] at hsnd
      intro q
      rw [hsnd]
      exact alookup_cons_ge s.pins pn _ hinv (by omega) q

lemma getPage_pins_nonneg (s : PagerState) (pn : Int) (s1 : PagerState)
    (hstep : GetPage s pn = (none, s1)) (hinv : ∀ q, 0 ≤ alookup s.pins q) :
    ∀ q, 0 ≤ alookup s1.pins q := by
  unfold GetPage at hstep
  by_cases hrange : pn < 0 ∨ s.numPages ≤ pn
  · rw [if_pos hrange] at hstep
    simp at hstep
  · rw [if_neg hrange] at hstep
    cases hpt : ptLookup s.pageTable pn with
    | none =>
      rw [hpt] at hstep
      cases hnp : newPage s with
      | none =>
        rw [hnp] at hstep
        simp at hstep
      | some sx =>
        rw [hnp] at hstep
        simp at hstep
        have hx : sx.pins = s.pins := newPage_pins s sx hnp
        intro q
        rw [← hstep]
        show 0 ≤ alookup ((pn, 1) :: sx.pins) q
        rw [hx]
        exact alookup_cons_ge s.pins pn 1 hinv (by omega) q
    | some loc =>
      rw [hpt] at hstep
      cases loc with
      | unpinnedQ =>
        simp at hstep
        intro q
        rw [← hstep]
        show 0 ≤ alookup ((pn, alookup s.pins pn + 1) :: s.pins) q
        have hpn := hinv pn
        exact alookup_cons_ge s.pins pn _ hinv (by omega) q
      | pinnedQ =>
        simp at hstep
        intro q
        rw [← hstep]
        show 0 ≤ alookup ((pn, alookup s.pins pn + 1) :: s.pins) q
        have hpn := hinv pn
        exact alookup_cons_ge s.pins pn _ hinv (by omega) q

lemma getNewPage_pins_nonneg (s : PagerState) (s1 : PagerState)
    (hstep : GetNewPage s = (none, s1)) (hinv : ∀ q, 0 ≤ alookup s.pins q) :
    ∀ q, 0 ≤ alookup s1.pins q := by
  unfold GetNewPage at hstep
  cases hnp : newPage s with
  | none =>
    rw [hnp] at hstep
    simp at hstep
  | some sx =>
    rw [hnp] at hstep
    simp at hstep
    have hx : sx.pins = s.pins := newPage_pins s sx hnp
    intro q
    rw [← hstep]
    show 0 ≤ alookup ((s.numPages, 1) :: sx.pins) q
    rw [hx]
    exact alookup_cons_ge s.pins s.numPages 1 hinv (by omega) q

lemma runOk_pins_nonneg (ops : List Op) :
    ∀ s : PagerState, (∀ q, 0 ≤ alookup s.pins q) →
      ∀ q, 0 ≤ alookup ((runOk s ops).getD s).pins q := by
  induction ops with
  | nil =>
    intro s h q
    simpa [runOk] using h q
  | cons op rest ih =>
    intro s h q
    rcases hstep : stepOp s op with ⟨e, s1⟩
    cases e with
    | some err =>
      have hnone : runOk s (op :: rest) = none := by
        show (match stepOp s op with
          | (none, s1) => runOk s1 rest
          | (some _, _) => none) = none
        rw [hstep]
      rw [hnone]
      simpa using h q
    | none =>
      have hrun : runOk s (op :: rest) = runOk s1 rest := by
        show (match stepOp s op with
          | (none, s1) => runOk s1 rest
          | (some _, _) => none) = runOk s1 rest
        rw [hstep]
      have h1 : ∀ x, 0 ≤ alookup s1.pins x := by
        cases op with
        | getPage pn => exact getPage_pins_nonneg s pn s1 hstep h
        | getNewPage => exact getNewPage_pins_nonneg s s1 hstep h
        | putPage pn => exact putPage_pins_nonneg s pn s1 hstep h
      rw [hrun]
      cases hr : runOk s1 rest with
      | none =>
        simpa using h q
      | some s2 =>
        have h2 := ih s1 h1 q
        rw [hr] at h2
        simpa using h2

/-- C3 fails as stated on the code: in the trace getNewPage; putPage 0;
putPage 0 from a fresh 4-frame pager, the final putPage returns an error
and immediately afterwards page 0's pin count is -1 — Page.Put
decrements before PutPage checks, so an erroring putPage leaves the
count negative rather than keeping it at zero. -/
theorem pin_negative_after_put_error :
    (stepOp (runAll (initPager 4) [Op.getNewPage, Op.putPage 0])
        (Op.putPage 0)).1.isSome = true ∧
    alookup (runAll (initPager 4)
        [Op.getNewPage, Op.putPage 0, Op.putPage 0]).pins 0 = -1 := by
  exact ⟨by decide, by decide⟩

/-- C3 amended: along any trace of getPage/getNewPage/putPage calls from
a fresh pager in which no call has returned an error, every page's pin
count is non-negative (every point of an error-free run is the end state
of an error-free prefix, so this covers all intermediate states); after
a putPage that returns an error the count is negative, as the
counterexample shows. -/
theorem pin_nonneg_no_error (frames : Nat) (ops : List Op) (p : Int) :
    0 ≤ alookup ((runOk (initPager frames) ops).getD (initPager frames)).pins p := by
  refine runOk_pins_nonneg ops (initPager frames) ?_ p
  intro q
  show (0 : Int) ≤ alookup [] q
  simp [alookup]
